import Mathlib

/-!
Verification model of the ACCELA deletion/cleanup core:
`src/utils/game_install_cleanup.py` (GameInstallDirectoryCleanup),
`src/core/game_manager.py` (GameManager) and
`src/utils/file_cleanup.py` (FileCleanupManager).

Paths are modelled as POSIX strings, the filesystem as a finite tree.
Python `pathlib.Path.resolve()` is modelled as textual normalization
(the model has no symlinks, and cwd-relative inputs are rooted at "/").
-/

/-! ## String and path helpers (POSIX semantics of os.path / pathlib)

All string operations are defined over the underlying character lists
so that they evaluate by kernel reduction. -/

/-- Contiguous-sublist test over character lists. -/
def isInfixL (pat : List Char) : List Char → Bool
  | [] => pat.isEmpty
  | c :: rest => pat.isPrefixOf (c :: rest) || isInfixL pat rest

/-- Python substring test `pat in s` (contiguous substring). -/
def strContains (s pat : String) : Bool := isInfixL pat.data s.data

/-- Python `s.startswith(pre)`. -/
def strStartsWith (s pre : String) : Bool := List.isPrefixOf pre.data s.data

/-- Python `s.endswith(suf)`. -/
def strEndsWith (s suf : String) : Bool := List.isSuffixOf suf.data s.data

/-- Python `s.lower()` (ASCII). -/
def strToLower (s : String) : String := String.mk (s.data.map Char.toLower)

/-- Join components with "/"; `"/".join(...)`. -/
def joinSlash : List String → String
  | [] => ""
  | [c] => c
  | c :: c' :: rest => c ++ "/" ++ joinSlash (c' :: rest)

/-- Python `str.isdigit()` for ASCII: nonempty and all digits. -/
def strIsDigit (s : String) : Bool :=
  s ≠ "" && s.data.all Char.isDigit

/-- Split a character list on '/' dropping empty components
(used to model `pathlib` component splitting). `cur` is the
reversed accumulator of the current component. -/
def splitComps : List Char → List Char → List String
  | [], cur => if cur.isEmpty then [] else [String.mk cur.reverse]
  | c :: rest, cur =>
    if c = '/' then
      if cur.isEmpty then splitComps rest [] else String.mk cur.reverse :: splitComps rest []
    else
      splitComps rest (c :: cur)

/-- Path components of a POSIX path string, empty components dropped. -/
def pathSplit (p : String) : List String := splitComps p.data []

/-- `PurePosixPath.parts`: a leading "/" is its own first component. -/
def pathParts (p : String) : List String :=
  if strStartsWith p "/" then "/" :: pathSplit p else pathSplit p

/-- `PurePosixPath.name`: the final path component ("" for the root). -/
def pathName (p : String) : String := (pathSplit p).getLastD ""

/-- `PurePosixPath.parent` (purely textual, no ".." resolution). -/
def pathParent (p : String) : String :=
  if strStartsWith p "/" then
    match (pathSplit p).dropLast with
    | [] => "/"
    | ds => "/" ++ joinSlash ds
  else
    match (pathSplit p).dropLast with
    | [] => "."
    | ds => joinSlash ds

/-- `os.path.join(a, b)` for a relative second argument. -/
def pathJoin (a b : String) : String := a ++ "/" ++ b

/-- Normalize components: drop ".", let ".." pop the previous component
(at the root ".." stays at the root, as in `os.path` for absolute paths).
`acc` holds the already-normalized components reversed. -/
def normComps : List String → List String → List String
  | [], acc => acc.reverse
  | c :: rest, acc =>
    if c = "." then normComps rest acc
    else if c = ".." then normComps rest acc.tail
    else normComps rest (c :: acc)

/-- `Path(p).resolve()` in a symlink-free model: interpret `p` from the
root and normalize "." / "..".  Always returns an absolute path. -/
def resolvePath (p : String) : String :=
  "/" ++ joinSlash (normComps (pathSplit p) [])

/-- `Path.is_relative_to(base)`: `base`'s parts are a prefix of the parts. -/
def isRelativeTo (p base : String) : Bool :=
  List.isPrefixOf (pathParts base) (pathParts p)

/-! ## Filesystem model

A finite directory tree.  `file size log` is a regular file of `size`
bytes; when the file is a JSON cleanup log written by
`GameInstallDirectoryCleanup._save_removal_log`, `log` carries the
parsed content (any other content is `none`). -/

/-- One recorded removal: an element of the `removals` lists built by
`game_install_cleanup.py` (`{type, path, size, reason}`). -/
structure Removal where
  type : String
  path : String
  size : Nat
  reason : String
deriving Repr, DecidableEq

/-- `game_data` dict as used by the cleanup: only the keys `game_name`
and `appid` are ever read; absent keys are `none`. -/
structure GameData where
  game_name : Option String := none
  appid : Option String := none
deriving Repr, DecidableEq

/-- Persisted removal-log JSON content
(`{timestamp, install_dir, game_data, session_id, removals}`). -/
structure RemovalLogData where
  timestamp : String
  install_dir : String
  game_data : GameData
  session_id : String
  removals : List Removal
deriving Repr, DecidableEq

mutual
inductive FSNode where
  | file (size : Nat) (log : Option RemovalLogData)
  | dir (children : FSList)
deriving DecidableEq
inductive FSList where
  | nil
  | cons (name : String) (node : FSNode) (rest : FSList)
deriving DecidableEq
end

/-- Build an `FSList` from a `List` of named nodes. -/
def FSList.ofList : List (String × FSNode) → FSList
  | [] => .nil
  | (n, c) :: rest => .cons n c (FSList.ofList rest)

/-- Directory constructor from a plain list. -/
def fsDir (cs : List (String × FSNode)) : FSNode := .dir (FSList.ofList cs)

/-- Plain file (non-log content). -/
def fsFile (size : Nat) : FSNode := .file size none

/-- First child with the given name (directory entries). -/
def FSList.findName : FSList → String → Option FSNode
  | .nil, _ => none
  | .cons n c rest, name => if n = name then some c else rest.findName name

/-- Names of the entries, in directory order. -/
def FSList.names : FSList → List String
  | .nil => []
  | .cons n _ rest => n :: rest.names

/-- Entries as a `List`, in directory order. -/
def FSList.toList : FSList → List (String × FSNode)
  | .nil => []
  | .cons n c rest => (n, c) :: rest.toList

/-- Navigate a component list from a node. -/
def FSNode.lookup : FSNode → List String → Option FSNode
  | n, [] => some n
  | .file _ _, _ :: _ => none
  | .dir cs, c :: rest =>
    match cs.findName c with
    | some child => child.lookup rest
    | none => none

/-- Drop every entry with the given name. -/
def FSList.eraseName : FSList → String → FSList
  | .nil, _ => .nil
  | .cons n c rest, name =>
    if n = name then rest.eraseName name else .cons n c (rest.eraseName name)

/-- Rewrite every entry with the given name through `f`. -/
def FSList.mapName : FSList → String → (FSNode → FSNode) → FSList
  | .nil, _, _ => .nil
  | .cons n c rest, name, f =>
    if n = name then .cons n (f c) (rest.mapName name f)
    else .cons n c (rest.mapName name f)

/-- Remove the object at the given component path
(`os.remove` / `shutil.rmtree`); no-op if it does not exist. -/
def FSNode.removePath : FSNode → List String → FSNode
  | n, [] => n
  | .file s l, _ :: _ => .file s l
  | .dir cs, [c] => .dir (cs.eraseName c)
  | .dir cs, c :: c' :: rest => .dir (cs.mapName c (fun child => child.removePath (c' :: rest)))

/-- Replace the entry `name` (or append it) in a child list:
`open(path, "w")` semantics for creating/overwriting a file. -/
def FSList.setName : FSList → String → FSNode → FSList
  | .nil, name, v => .cons name v .nil
  | .cons n c rest, name, v =>
    if n = name then .cons n v rest else .cons n c (rest.setName name v)

/-- Create/overwrite the object at the component path; no-op when the
parent chain does not lead to a directory. -/
def FSNode.writePath : FSNode → List String → FSNode → FSNode
  | n, [], _ => n
  | .file s l, _ :: _, _ => .file s l
  | .dir cs, [c], v => .dir (cs.setName c v)
  | .dir cs, c :: c' :: rest, v => .dir (cs.mapName c (fun child => child.writePath (c' :: rest) v))

mutual
/-- Sum of all file sizes in a subtree (a file counts itself). -/
def FSNode.treeSize : FSNode → Nat
  | .file s _ => s
  | .dir cs => cs.treeSize
def FSList.treeSize : FSList → Nat
  | .nil => 0
  | .cons _ c rest => c.treeSize + rest.treeSize
end

/-- A valid directory-entry name: nonempty, not "." or "..", no '/'. -/
def validName (s : String) : Bool :=
  s ≠ "" && s ≠ "." && s ≠ ".." && !(s.data.contains '/')

mutual
/-- Well-formed tree: every entry name is a `validName`. -/
def FSNode.wf : FSNode → Bool
  | .file _ _ => true
  | .dir cs => cs.wf
def FSList.wf : FSList → Bool
  | .nil => true
  | .cons n c rest => validName n && c.wf && rest.wf
end

/-- Look up an absolute (or model-rooted) path string. -/
def fsLookup (fs : FSNode) (p : String) : Option FSNode :=
  fs.lookup (normComps (pathSplit p) [])

/-- `os.path.exists` / `Path.exists`. -/
def fsExists (fs : FSNode) (p : String) : Bool := (fsLookup fs p).isSome

/-- `os.path.isdir` / `Path.is_dir`. -/
def fsIsDir (fs : FSNode) (p : String) : Bool :=
  match fsLookup fs p with
  | some (.dir _) => true
  | _ => false

/-- Remove the object at a path string. -/
def fsRemove (fs : FSNode) (p : String) : FSNode :=
  fs.removePath (normComps (pathSplit p) [])

/-- Write (create or overwrite) a file at a path string. -/
def fsWrite (fs : FSNode) (p : String) (v : FSNode) : FSNode :=
  fs.writePath (normComps (pathSplit p) []) v

/-! ## GameInstallDirectoryCleanup (src/utils/game_install_cleanup.py)

`Path.home()` is passed as the `home` parameter and `datetime.now()`
as the `now` parameter.  The emoji decoration of the source's log and
error strings is elided. -/

/-- Allowed Steam base directories (lines 185-190). -/
def allowedBasePaths (home : String) : List String :=
  [home ++ "/.steam/steam", home ++ "/.local/share/Steam",
   "/usr/local/games/steam", "/opt/steam"]

/-- Ultra check 1 (lines 175-177): the resolved directory must exist. -/
def uDirExists (fs : FSNode) (install_dir : String) : Bool :=
  fsExists fs (resolvePath install_dir)

/-- Ultra check 2 (lines 180-182): reject absolute paths with at most 3
`Path.parts` components (too close to the root). -/
def uFarFromRoot (install_dir : String) : Bool :=
  !(strStartsWith (resolvePath install_dir) "/" &&
    (pathParts (resolvePath install_dir)).length ≤ 3)

/-- Ultra check 2.1 (lines 184-203): the resolved path must be contained
in one of the allowed Steam base directories. -/
def uAllowedBase (home install_dir : String) : Bool :=
  (allowedBasePaths home).any
    (fun b => isRelativeTo (resolvePath install_dir) (resolvePath b))

/-- Ultra check 3 (lines 205-208): the raw path string must contain both
"steamapps" and "common" (case-insensitive). -/
def uSteamappsCommon (install_dir : String) : Bool :=
  strContains (strToLower install_dir) "steamapps" &&
  strContains (strToLower install_dir) "common"

/-- Ultra check 4 (lines 210-217): the final directory name must contain
the (nonempty) game name, case-insensitively. -/
def uNameMatchesGame (install_dir : String) (gd : GameData) : Bool :=
  let game_name := strToLower (gd.game_name.getD "")
  let dir_name := strToLower (pathName (resolvePath install_dir))
  game_name ≠ "" && strContains dir_name game_name

/-- `_verify_game_directory_match` (lines 254-291): directory name must
contain the game name; the game-file counting loop only warns, but its
`iterdir` raises (returning False) when the path is not a directory. -/
def verifyGameDirectoryMatch (fs : FSNode) (install_dir : String) (gd : GameData) : Bool :=
  let game_name := strToLower (gd.game_name.getD "")
  let dir_name := strToLower (pathName install_dir)
  if game_name ≠ "" && !(strContains dir_name game_name) then false
  else
    match fsLookup fs install_dir with
    | some (.dir _) => true
    | _ => false

/-- Ultra check 6 (lines 224-235): dangerous Steam paths; fails only
when the lowered path string ends with one of the fragments. -/
def uNoDangerousSuffix (install_dir : String) : Bool :=
  !(["steamapps/common", "steam.exe", "steam.sh",
     "userdata", "config", "steamapps/workshop"].any
      (fun d => strContains (strToLower install_dir) d &&
                strEndsWith (strToLower install_dir) d))

/-- `_verify_steam_library_structure` (lines 293-326): parent must be
named "common", grandparent "steamapps"; the sibling-game count only
warns, but iterating a non-directory parent raises (returning False). -/
def verifySteamLibraryStructure (fs : FSNode) (install_dir : String) : Bool :=
  let parent := pathParent install_dir
  (strToLower (pathName parent) == "common") &&
  (strToLower (pathName (pathParent parent)) == "steamapps") &&
  (match fsLookup fs parent with
   | some (.dir _) => true
   | _ => false)

/-- Ultra check 8 (lines 242-245): a session id must be present. -/
def uSessionNonempty (session_id : String) : Bool := session_id ≠ ""

/-- `_verify_ultra_safety_checks` (lines 163-252): conjunction of the
hard checks, in source order. -/
def verifyUltraSafetyChecks (fs : FSNode) (home install_dir : String)
    (gd : GameData) (session_id : String) : Bool :=
  uDirExists fs install_dir &&
  uFarFromRoot install_dir &&
  uAllowedBase home install_dir &&
  uSteamappsCommon install_dir &&
  uNameMatchesGame install_dir gd &&
  verifyGameDirectoryMatch fs install_dir gd &&
  uNoDangerousSuffix install_dir &&
  verifySteamLibraryStructure fs install_dir &&
  uSessionNonempty session_id

/-- Confirmation 1 (lines 335-338): complete game data. -/
def mGameDataComplete (gd : GameData) : Bool :=
  gd.game_name.getD "" ≠ "" && gd.appid.getD "" ≠ ""

/-- Confirmation 2 (lines 340-342): session id of length at least 5. -/
def mSessionValid (session_id : String) : Bool :=
  session_id ≠ "" && session_id.length ≥ 5

/-- Confirmation 4 (lines 349-353): the path exists and is a directory. -/
def mPathValid (fs : FSNode) (install_dir : String) : Bool :=
  fsExists fs install_dir && fsIsDir fs install_dir

/-- Critical system path fragments (lines 355-360). -/
def criticalChecks : List String :=
  ["windows", "program files", "system32", "usr/bin", "etc", "var",
   "root", "boot", "lib", "opt", "sbin"]

/-- Confirmation 5 (lines 355-366): no critical fragment may appear
anywhere in the lowered path string. -/
def mNoCriticalFragment (install_dir : String) : Bool :=
  !(criticalChecks.any (fun c => strContains (strToLower install_dir) c))

/-- `_multiple_confirmations` (lines 328-373). -/
def multipleConfirmations (fs : FSNode) (install_dir : String)
    (gd : GameData) (session_id : String) : Bool :=
  mGameDataComplete gd &&
  mSessionValid session_id &&
  mPathValid fs install_dir &&
  mNoCriticalFragment install_dir

/-- `_get_directory_size` (lines 758-773): `os.walk` sum of file sizes
(0 for a missing path or a plain file). -/
def getDirectorySize (fs : FSNode) (p : String) : Nat :=
  match fsLookup fs p with
  | some (.dir cs) => cs.treeSize
  | _ => 0

/-- Accumulator of `_complete_directory_cleanup`'s local result dict. -/
structure CompleteResult where
  files_removed : Nat
  dirs_removed : Nat
  size : Nat
  removals : List Removal
deriving Repr, DecidableEq

/-- The per-item deletion loop of `_complete_directory_cleanup`
(lines 399-440), iterating over the snapshot of child names: files are
unlinked, directories removed recursively, each removal recorded with
its size; in dry-run mode nothing is removed but the records are still
appended. Items that are neither file nor directory are skipped. -/
def completeCleanupLoop (install_dir : String) (dry_run : Bool) :
    List String → FSNode → CompleteResult → CompleteResult × FSNode
  | [], fs, acc => (acc, fs)
  | name :: rest, fs, acc =>
    let itemPath := pathJoin install_dir name
    match fsLookup fs itemPath with
    | some (.file fsize _) =>
      let fs' := if dry_run then fs else fsRemove fs itemPath
      completeCleanupLoop install_dir dry_run rest fs'
        { acc with
          files_removed := acc.files_removed + 1
          size := acc.size + fsize
          removals := acc.removals ++ [⟨"file", itemPath, fsize, "complete_cleanup"⟩] }
    | some (.dir _) =>
      let dsize := getDirectorySize fs itemPath
      let fs' := if dry_run then fs else fsRemove fs itemPath
      completeCleanupLoop install_dir dry_run rest fs'
        { acc with
          dirs_removed := acc.dirs_removed + 1
          size := acc.size + dsize
          removals := acc.removals ++ [⟨"directory", itemPath, dsize, "complete_cleanup"⟩] }
    | none => completeCleanupLoop install_dir dry_run rest fs acc

/-- `_complete_directory_cleanup` (lines 375-460): snapshot the children
(line 393), then delete each; if `iterdir` raises (path missing or not
a directory) the exception handler returns the zero result. -/
def completeDirectoryCleanup (fs : FSNode) (install_dir : String) (dry_run : Bool) :
    CompleteResult × FSNode :=
  match fsLookup fs install_dir with
  | some (.dir cs) => completeCleanupLoop install_dir dry_run cs.names fs ⟨0, 0, 0, []⟩
  | _ => (⟨0, 0, 0, []⟩, fs)

/-- `_save_removal_log` (lines 817-839): write the JSON log file into
the cleaned directory (the strftime timestamp fallback for an empty
session id is modelled by `now`; the JSON byte length is not modelled,
the file is written with size 0). -/
def saveRemovalLog (fs : FSNode) (install_dir : String) (gd : GameData)
    (session_id now : String) (removal_log : List Removal) : FSNode :=
  let log_data : RemovalLogData :=
    ⟨now, install_dir, gd, session_id, removal_log⟩
  let log_file := pathJoin install_dir
    (".accela_cleanup_log_" ++ (if session_id ≠ "" then session_id else now) ++ ".json")
  fsWrite fs log_file (.file 0 (some log_data))

/-- Result dict of `cleanup_game_install_directory` (lines 97-110).
`space_freed_mb` models the Python float by a rational. -/
structure CleanupResult where
  success : Bool := false
  install_dir : String
  game_name : String
  appid : String
  session_id : String
  files_removed : Nat := 0
  dirs_removed : Nat := 0
  space_freed_mb : ℚ := 0
  removals : List Removal := []
  errors : List String := []
  dry_run : Bool
  cleanup_type : String := "COMPLETE_DIRECTORY_CLEANUP"
deriving Repr, DecidableEq

/-- Python `round()` to the nearest integer, ties to even. -/
def pythonRound (q : ℚ) : ℤ :=
  let f := ⌊q⌋
  let r := q - (f : ℚ)
  if r < 1 / 2 then f
  else if 1 / 2 < r then f + 1
  else if f % 2 = 0 then f else f + 1

/-- Python `round(x, 2)`. -/
def round2 (q : ℚ) : ℚ := (pythonRound (q * 100) : ℚ) / 100

/-- `cleanup_game_install_directory` (lines 76-161). -/
def cleanupGameInstallDirectory (fs : FSNode) (home install_dir : String)
    (gd : GameData) (session_id : String) (dry_run : Bool) (now : String) :
    CleanupResult × FSNode :=
  let base : CleanupResult :=
    { install_dir := install_dir, game_name := gd.game_name.getD "Unknown",
      appid := gd.appid.getD "Unknown", session_id := session_id, dry_run := dry_run }
  if !(verifyUltraSafetyChecks fs home install_dir gd session_id) then
    ({ base with errors :=
        ["ULTRA SAFETY CHECK FAILED: Directory validation failed - NO FILES DELETED"] }, fs)
  else if !(multipleConfirmations fs install_dir gd session_id) then
    ({ base with errors := ["MULTIPLE CONFIRMATIONS FAILED - NO FILES DELETED"] }, fs)
  else
    -- self.removal_log = [] (line 130); no later statement appends to it
    let removal_log : List Removal := []
    let (cr, fs1) := completeDirectoryCleanup fs install_dir dry_run
    let total_size_freed := cr.size
    let result :=
      { base with
        files_removed := cr.files_removed
        dirs_removed := cr.dirs_removed
        removals := cr.removals
        space_freed_mb := round2 ((total_size_freed : ℚ) / (1024 * 1024))
        success := true }
    let fs2 := if !dry_run then saveRemovalLog fs1 install_dir gd session_id now removal_log
               else fs1
    (result, fs2)

/-- Lexicographic strict order on character lists (by code point). -/
def strLexLt : List Char → List Char → Bool
  | [], [] => false
  | [], _ :: _ => true
  | _ :: _, [] => false
  | a :: as, b :: bs =>
    if a.toNat < b.toNat then true
    else if b.toNat < a.toNat then false
    else strLexLt as bs

/-- Stable insertion for a descending sort by timestamp. -/
def insertLogDesc (d : RemovalLogData) : List RemovalLogData → List RemovalLogData
  | [] => [d]
  | e :: rest =>
    if strLexLt d.timestamp.data e.timestamp.data then e :: insertLogDesc d rest
    else d :: e :: rest

/-- `sorted(logs, key=timestamp, reverse=True)`: stable, newest first. -/
def sortLogsDesc : List RemovalLogData → List RemovalLogData
  | [] => []
  | d :: rest => insertLogDesc d (sortLogsDesc rest)

/-- The `json.load` filter of `get_removal_log`: files whose name starts
with ".accela_cleanup_log_" and ends with ".json" and whose content is a
parseable log; anything else is skipped (`except: continue`). -/
def logsOfChildren : List (String × FSNode) → List RemovalLogData
  | [] => []
  | (name, node) :: rest =>
    if strStartsWith name ".accela_cleanup_log_" && strEndsWith name ".json" then
      match node with
      | .file _ (some d) => d :: logsOfChildren rest
      | _ => logsOfChildren rest
    else logsOfChildren rest

/-- `get_removal_log` (lines 841-859): collect the log files of the
directory and return them sorted newest first (errors give `[]`). -/
def getRemovalLog (fs : FSNode) (install_dir : String) : List RemovalLogData :=
  match fsLookup fs install_dir with
  | some (.dir cs) => sortLogsDesc (logsOfChildren cs.toList)
  | _ => []

/-! ## GameManager (src/core/game_manager.py) -/

/-- Game record dict produced by `_parse_acf_file` (lines 93-103);
`size_formatted` is a presentation-only string and is not modelled. -/
structure GameInfo where
  appid : String
  name : String
  display_name : String
  installdir : String
  acf_path : String
  game_path : String
  library_path : String
  size_bytes : Nat
deriving Repr, DecidableEq

/-- Python regex `\s` whitespace class (ASCII). -/
def isWS (c : Char) : Bool :=
  c = ' ' || c = '\t' || c = '\n' || c = '\r' || c = '\x0b' || c = '\x0c'

/-- Drop leading regex whitespace (`\s*`). -/
def dropWS : List Char → List Char
  | [] => []
  | c :: rest => if isWS c then dropWS rest else c :: rest

/-- After the literal `"key"` part of the pattern, match
`\s*"([^"]+)"` (or `\s*"(\d+)"` when `digitsOnly`). -/
def matchValue (digitsOnly : Bool) (cs : List Char) : Option String :=
  match dropWS cs with
  | '"' :: rest =>
    let value := rest.takeWhile (fun c => if digitsOnly then c.isDigit else c ≠ '"')
    match rest.drop value.length with
    | '"' :: _ => if value.isEmpty then none else some (String.mk value)
    | _ => none
  | _ => none

/-- Left-to-right scan for the first match of the whole pattern
(`re.search` semantics for these patterns). -/
def searchKV (key : String) (digitsOnly : Bool) : List Char → Option String
  | [] => none
  | c :: rest =>
    let pat := ('"' :: key.data) ++ ['"']
    if pat.isPrefixOf (c :: rest) then
      match matchValue digitsOnly ((c :: rest).drop pat.length) with
      | some v => some v
      | none => searchKV key digitsOnly rest
    else searchKV key digitsOnly rest

/-- `re.search(r'"<key>"\s*"([^"]+)"', content)` (group 1), with the
`(\d+)` group variant for `appid` (lines 72-74). -/
def reSearchKV (key : String) (digitsOnly : Bool) (content : String) : Option String :=
  searchKV key digitsOnly content.data

/-- `_calculate_directory_size` (lines 192-206): same `os.walk` sum as
`_get_directory_size` of the cleanup module. -/
def calculateDirectorySize (fs : FSNode) (p : String) : Nat :=
  match fsLookup fs p with
  | some (.dir cs) => cs.treeSize
  | _ => 0

/-- `_parse_acf_file` (lines 55-107), with the file already read into
`content`.  Returns `none` when a required key is missing. -/
def parseAcfFile (fs : FSNode) (content acf_path library_path : String) : Option GameInfo :=
  match reSearchKV "appid" true content,
        reSearchKV "name" false content,
        reSearchKV "installdir" false content with
  | some appid, some name, some installdir =>
    let game_path := library_path ++ "/steamapps/common/" ++ installdir
    let size_bytes := if fsExists fs game_path then calculateDirectorySize fs game_path else 0
    -- lines 88-91: fallback for any name starting with 'App_'
    let display_name := if strStartsWith name "App_" then installdir else name
    some ⟨appid, name, display_name, installdir, acf_path, game_path, library_path, size_bytes⟩
  | _, _, _ => none

/-- `_is_accela_game` (lines 109-126): the game directory exists and
contains a `.DepotDownloader` marker directory (the code after the
early `return True` is unreachable). -/
def isAccelaGame (fs : FSNode) (gi : GameInfo) : Bool :=
  fsExists fs gi.game_path && fsIsDir fs (pathJoin gi.game_path ".DepotDownloader")

/-- `os.path.basename`: the text after the last '/'. -/
def osBasename (p : String) : String :=
  String.mk ((p.data.reverse.takeWhile (fun c => c ≠ '/')).reverse)

/-- `os.path.normpath` (textual): collapse duplicate slashes, resolve
"." and "..".  Leading ".." underflow on relative paths is not
modelled (all paths in scope are absolute). -/
def normpathStr (p : String) : String :=
  let comps := normComps (pathSplit p) []
  if strStartsWith p "/" then "/" ++ joinSlash comps
  else
    match comps with
    | [] => "."
    | cs => joinSlash cs

/-- `_validate_compatdata_deletion_safety` (lines 128-176): suffix must
be `compatdata/<appid>`, the directory must be listable, the basename
must not be a dangerous system name, and the appid must be numeric.
The expected-items count (`pfx`/`version`/`config_info`) only warns. -/
def validateCompatdataDeletionSafety (fs : FSNode) (compatdata_path appid : String) : Bool :=
  strEndsWith compatdata_path (pathJoin "compatdata" appid) &&
  (match fsLookup fs compatdata_path with
   | some (.dir _) => true
   | _ => false) &&
  !(["windows", "system32", "program files", "programdata", "root", "etc", "var"].any
     (fun d => strToLower (osBasename compatdata_path) = d)) &&
  strIsDigit appid

/-- `_validate_deletion_safety` (lines 303-355). -/
def validateDeletionSafety (fs : FSNode) (gi : GameInfo) : Bool :=
  isAccelaGame fs gi &&
  (gi.acf_path ≠ "" && strEndsWith gi.acf_path ".acf") &&
  (gi.game_path ≠ "" && strContains gi.game_path "common") &&
  strEndsWith gi.acf_path ("appmanifest_" ++ gi.appid ++ ".acf") &&
  (normpathStr gi.game_path =
     normpathStr (gi.library_path ++ "/steamapps/common/" ++ gi.installdir)) &&
  !(["windows", "system32", "program files", "programdata", "root"].any
     (fun d => strToLower (osBasename gi.game_path) = d))

/-- `"; ".join(...)`. -/
def joinSemicolon : List String → String
  | [] => ""
  | [c] => c
  | c :: c' :: rest => c ++ "; " ++ joinSemicolon (c' :: rest)

/-- Return value of `delete_game` plus the local `deleted_items` and
`errors` lists (surfaced for analysis; the Python function returns only
`(success, message)`, both derived from these locals). -/
structure DeleteOutcome where
  success : Bool
  message : String
  deleted_items : List String
  errors : List String
deriving Repr, DecidableEq

/-- Step 1 of `delete_game` (lines 247-256): delete the .acf file if
present, returning `(deleted_items, errors, fs)`.  `os.remove` on a
directory raises IsADirectoryError, which the handler (lines 253-256)
converts into an `errors` entry with the file untouched. -/
def dgStep1 (fs : FSNode) (gi : GameInfo) : List String × List String × FSNode :=
  match fsLookup fs gi.acf_path with
  | some (.file _ _) =>
    (["ACF file: " ++ gi.acf_path], [], fsRemove fs gi.acf_path)
  | some (.dir _) =>
    ([], ["Failed to delete ACF file: [Errno 21] Is a directory: '" ++ gi.acf_path ++ "'"],
     fs)
  | none => ([], [], fs)

/-- Step 2 of `delete_game` (lines 258-267): delete the game folder if
present. -/
def dgStep2 (fs1 : FSNode) (gi : GameInfo) : List String × FSNode :=
  if fsExists fs1 gi.game_path && fsIsDir fs1 gi.game_path then
    (["Game folder: " ++ gi.game_path], fsRemove fs1 gi.game_path)
  else ([], fs1)

/-- `os.path.join(library_path, 'steamapps', 'compatdata', appid)`
(line 271). -/
def dgCompatPath (gi : GameInfo) : String :=
  gi.library_path ++ "/steamapps/compatdata/" ++ gi.appid

/-- Step 3 of `delete_game` (lines 269-290): compatdata deletion,
returning `(deleted_items, errors, fs)`. -/
def dgStep3 (fs2 : FSNode) (gi : GameInfo) (delete_compatdata : Bool) :
    List String × List String × FSNode :=
  if delete_compatdata then
    if fsExists fs2 (dgCompatPath gi) && fsIsDir fs2 (dgCompatPath gi) then
      if validateCompatdataDeletionSafety fs2 (dgCompatPath gi) gi.appid then
        (["Compatdata folder: " ++ dgCompatPath gi], [],
         fsRemove fs2 (dgCompatPath gi))
      else
        ([], ["Safety validation failed for compatdata: " ++ dgCompatPath gi], fs2)
    else ([], [], fs2)
  else ([], [], fs2)

/-- `delete_game` (lines 217-301).  In this model the sources of
`errors` entries are the IsADirectoryError handler of step 1 (lines
253-256) and the compatdata validation branch (lines 279-282); the
remaining OS-exception handlers guard only type-correct removals and
are unreachable. -/
def deleteGame (fs : FSNode) (gi : GameInfo) (delete_compatdata : Bool) :
    DeleteOutcome × FSNode :=
  if !(validateDeletionSafety fs gi) then
    (⟨false, "Safety validation failed for game " ++ gi.name, [], []⟩, fs)
  else
    let step1 := dgStep1 fs gi
    let step2 := dgStep2 step1.2.2 gi
    let step3 := dgStep3 step2.2 gi delete_compatdata
    let deleted_items := step1.1 ++ step2.1 ++ step3.1
    let errors := step1.2.1 ++ step3.2.1
    let fs3 := step3.2.2
    if errors ≠ [] then
      (⟨false, "Partial deletion: " ++ joinSemicolon errors, deleted_items, errors⟩, fs3)
    else
      let compatdata_note :=
        if delete_compatdata then " (including save data)" else " (save data preserved)"
      (⟨true,
        "Successfully deleted " ++ gi.name ++ compatdata_note ++ ". Items removed: " ++
          joinSemicolon deleted_items,
        deleted_items, errors⟩, fs3)

/-! ## FileCleanupManager (src/utils/file_cleanup.py) -/

/-- `self.temp_files` (line 17). -/
def fcTempFiles : List String := ["keys.vdf", "manifest", "appinfo.vdf"]

/-- `self.temp_extensions` (line 16). -/
def fcTempExtensions : List String :=
  [".tmp", ".partial", ".downloading", ".temp", ".incomplete"]

/-- `FileCleanupManager._is_partial_file` (lines 128-143): temp
extension, or one of the name patterns (the session pattern is
`_<session_id>_` only when a session id is given). -/
def fcIsPartFile (filename session_id : String) : Bool :=
  fcTempExtensions.any (fun ext => strEndsWith (strToLower filename) ext) ||
  (let temp_patterns :=
    [(if session_id ≠ "" then "_" ++ session_id ++ "_" else ""),
     "temp_", "tmp_", "partial_", ".download", ".incomplete", "~$", ".lock"]
   temp_patterns.any (fun pat => pat ≠ "" && strContains (strToLower filename) pat))

/-- Loop body of `_cleanup_current_directory` (lines 51-70): each
fixed-name temp file/directory under `cwd` is removed if it exists
(`rmtree` for directories, `remove` for files — both drop the node);
the removed paths are returned in order. -/
def cleanupCurrentDirLoop (cwd : String) : List String → FSNode → FSNode × List String
  | [], fs => (fs, [])
  | name :: rest, fs =>
    let temp_path := pathJoin cwd name
    if fsExists fs temp_path then
      let step := cleanupCurrentDirLoop cwd rest (fsRemove fs temp_path)
      (step.1, temp_path :: step.2)
    else cleanupCurrentDirLoop cwd rest fs

/-- `_cleanup_current_directory` (lines 51-70), with `os.getcwd()`
passed as `cwd`. -/
def cleanupCurrentDirectory (fs : FSNode) (cwd : String) : FSNode × List String :=
  cleanupCurrentDirLoop cwd fcTempFiles fs

/-! ## GameInstallDirectoryCleanup classifier (spec section 4.3) -/

/-- `GameInstallDirectoryCleanup._is_depotdownloader_artifact`
(lines 710-728). -/
def isDepotDownloaderArtifact (filename : String) : Bool :=
  ["keys.vdf", "appinfo.vdf", "package.vdf"].contains (strToLower filename) ||
  (strStartsWith (strToLower filename) "manifest_" ||
   strStartsWith (strToLower filename) "chunk_") ||
  [".manifest.tmp", ".chunk.tmp", ".depot.tmp"].any
    (fun suf => strEndsWith (strToLower filename) suf)

/-- `self.partial_extensions` (lines 29-32). -/
def gicPartExtensions : List String :=
  [".tmp", ".partial", ".downloading", ".temp", ".incomplete",
   ".chunk", ".manifest.tmp", ".depot.tmp"]

/-- `self.partial_patterns` (lines 35-38). -/
def gicPartPatterns : List String :=
  ["manifest_", "chunk_", "temp_", "tmp_", "partial_",
   ".download", ".incomplete", ".lock", "~$"]

/-- `GameInstallDirectoryCleanup._is_partial_file` (lines 686-708). -/
def gicIsPartFile (filename session_id : String) : Bool :=
  gicPartExtensions.any (fun ext => strEndsWith (strToLower filename) ext) ||
  gicPartPatterns.any (fun pat => strContains (strToLower filename) pat) ||
  (session_id ≠ "" && strContains (strToLower filename) session_id) ||
  isDepotDownloaderArtifact filename

/-! ## Concrete instances used in witnesses and counterexamples -/

/-- A Steam library holding the game directory `mygame` with one
partial file and one subdirectory. -/
def demoFS : FSNode :=
  fsDir [("home", fsDir [("u", fsDir [(".steam", fsDir [("steam", fsDir [("steamapps", fsDir
    [("common", fsDir
      [("mygame", fsDir [("a.tmp", fsFile 7), ("sub", fsDir [("b.dat", fsFile 5)])]),
       ("othergame", fsDir [])])])])])])])]

def demoDir : String := "/home/u/.steam/steam/steamapps/common/mygame"

def demoGD : GameData := { game_name := some "mygame", appid := some "123" }

/-- A Steam library with an installed ACCELA game (appid 789) and its
compatdata directory holding only `save.dat`. -/
def demoLibFS : FSNode :=
  fsDir [("home", fsDir [("u", fsDir [(".steam", fsDir [("steam", fsDir [("steamapps", fsDir
    [("appmanifest_789.acf", fsFile 1),
     ("common", fsDir
       [("MyGame", fsDir [(".DepotDownloader", fsDir []), ("game.exe", fsFile 10)]),
        ("Other", fsDir [])]),
     ("compatdata", fsDir [("789", fsDir [("save.dat", fsFile 3)])])])])])])])]

def demoGI : GameInfo :=
  ⟨"789", "MyGame", "MyGame", "MyGame",
   "/home/u/.steam/steam/steamapps/appmanifest_789.acf",
   "/home/u/.steam/steam/steamapps/common/MyGame",
   "/home/u/.steam/steam", 10⟩

/-- Mismatched record used for C6: appid 789, manifest named
appmanifest_456.acf. -/
def giMismatch : GameInfo :=
  { demoGI with acf_path := "/home/u/.steam/steam/steamapps/appmanifest_456.acf" }

/-- Modelled from the spec: a name matches the generic placeholder
pattern `App_<digits>` when it is exactly "App_" followed by one or
more digits. -/
def specPlaceholderAppDigits (name : String) : Bool :=
  strStartsWith name "App_" && strIsDigit (String.mk (name.data.drop 4))

/-- Manifest content used for C7: a name that starts with "App_" but
does not match `App_<digits>`. -/
def c7content : String :=
  "\"appid\" \"123\"\n\"name\" \"App_Foo\"\n\"installdir\" \"Bar\""

/-- The record `_parse_acf_file` produces for `c7content`. -/
def c7gi : GameInfo :=
  ⟨"123", "App_Foo", "Bar", "Bar", "/x/appmanifest_123.acf",
   "/lib/steamapps/common/Bar", "/lib", 0⟩

/-- Sum of the `size` fields of a removals list. -/
def sumRemovalSizes (rs : List Removal) : Nat := (rs.map (fun r => r.size)).sum

/-- Working directory used for C3: an application directory far from any
Steam library, holding a real directory named "manifest". -/
def c3FS : FSNode :=
  fsDir [("home", fsDir [("user", fsDir [("accela", fsDir
    [("manifest", fsDir [("game.pak", fsFile 9)]), ("run.log", fsFile 2)])])])]

/-! ## General lemmas -/

/-- If either validation layer rejects, the cleanup returns early:
`success` stays false and the filesystem is untouched. -/
theorem cleanup_rejected (fs : FSNode) (home install_dir : String) (gd : GameData)
    (sid : String) (dr : Bool) (now : String)
    (h : verifyUltraSafetyChecks fs home install_dir gd sid = false ∨
         multipleConfirmations fs install_dir gd sid = false) :
    (cleanupGameInstallDirectory fs home install_dir gd sid dr now).1.success = false ∧
    (cleanupGameInstallDirectory fs home install_dir gd sid dr now).2 = fs := by
  unfold cleanupGameInstallDirectory
  rcases h with h | h
  · simp [h]
  · rcases hu : verifyUltraSafetyChecks fs home install_dir gd sid
    · simp [hu]
    · simp [hu, h]

/-- With any single hard predicate false, the two validation layers
cannot both pass. -/
theorem checks_fail_of_pred_false (fs : FSNode) (home install_dir : String)
    (gd : GameData) (sid : String)
    (h : uDirExists fs install_dir = false ∨
         uFarFromRoot install_dir = false ∨
         uAllowedBase home install_dir = false ∨
         uSteamappsCommon install_dir = false ∨
         uNameMatchesGame install_dir gd = false ∨
         (strToLower (pathName (pathParent install_dir)) == "common") = false ∨
         (strToLower (pathName (pathParent (pathParent install_dir))) == "steamapps") = false ∨
         uSessionNonempty sid = false ∨
         mGameDataComplete gd = false ∨
         mSessionValid sid = false ∨
         mNoCriticalFragment install_dir = false) :
    verifyUltraSafetyChecks fs home install_dir gd sid = false ∨
    multipleConfirmations fs install_dir gd sid = false := by
  rcases h with h | h | h | h | h | h | h | h | h | h | h
  · exact Or.inl (by simp [verifyUltraSafetyChecks, h])
  · exact Or.inl (by simp [verifyUltraSafetyChecks, h])
  · exact Or.inl (by simp [verifyUltraSafetyChecks, h])
  · exact Or.inl (by simp [verifyUltraSafetyChecks, h])
  · exact Or.inl (by simp [verifyUltraSafetyChecks, h])
  · exact Or.inl (by simp [verifyUltraSafetyChecks, verifySteamLibraryStructure, h])
  · exact Or.inl (by simp [verifyUltraSafetyChecks, verifySteamLibraryStructure, h])
  · exact Or.inl (by simp [verifyUltraSafetyChecks, h])
  · exact Or.inr (by simp [multipleConfirmations, h])
  · exact Or.inr (by simp [multipleConfirmations, h])
  · exact Or.inr (by simp [multipleConfirmations, h])

/-! ## Claim theorems -/

/-- C2: for every input to `cleanup_game_install_directory` for which
any single hard safety predicate is false (directory existence, at
least 4 absolute path components, containment in an allowed Steam base
directory, presence of `steamapps` and `common` segments, directory
name containing the game name, parent named `common` and grandparent
named `steamapps`, non-empty session id of minimum length, complete
game data, no system-critical fragment in the path), the call performs
no filesystem mutation and returns `success = false`. -/
theorem c2_fail_closed (fs : FSNode) (home install_dir : String) (gd : GameData)
    (sid : String) (dr : Bool) (now : String)
    (h : uDirExists fs install_dir = false ∨
         uFarFromRoot install_dir = false ∨
         uAllowedBase home install_dir = false ∨
         uSteamappsCommon install_dir = false ∨
         uNameMatchesGame install_dir gd = false ∨
         (strToLower (pathName (pathParent install_dir)) == "common") = false ∨
         (strToLower (pathName (pathParent (pathParent install_dir))) == "steamapps") = false ∨
         uSessionNonempty sid = false ∨
         mGameDataComplete gd = false ∨
         mSessionValid sid = false ∨
         mNoCriticalFragment install_dir = false) :
    (cleanupGameInstallDirectory fs home install_dir gd sid dr now).1.success = false ∧
    (cleanupGameInstallDirectory fs home install_dir gd sid dr now).2 = fs :=
  cleanup_rejected fs home install_dir gd sid dr now
    (checks_fail_of_pred_false fs home install_dir gd sid h)

/-- Witness for C2 at a concrete input (empty session id, spec
Scenario C): the cleanup rejects and mutates nothing. -/
theorem c2_fail_closed_witness :
    mSessionValid "" = false ∧
    ((cleanupGameInstallDirectory demoFS "/home/u" demoDir demoGD "" false "T1").1.success = false ∧
     (cleanupGameInstallDirectory demoFS "/home/u" demoDir demoGD "" false "T1").2 = demoFS) :=
  ⟨by decide,
   c2_fail_closed demoFS "/home/u" demoDir demoGD "" false "T1"
     (Or.inr (Or.inr (Or.inr (Or.inr (Or.inr (Or.inr (Or.inr (Or.inr
       (Or.inr (Or.inl (by decide)))))))))))⟩

/-- C10: every `install_dir` whose lowercase string contains the
fragment "opt" — in particular any directory under /opt/steam, one of
the allowed base paths — is rejected by the CONFIRMING denylist
(substring match anywhere in the path), so the cleanup returns
`success = false` and performs no filesystem mutation. -/
theorem c10_opt_fragment_rejected (fs : FSNode) (home install_dir : String)
    (gd : GameData) (sid : String) (dr : Bool) (now : String)
    (h : strContains (strToLower install_dir) "opt" = true) :
    (cleanupGameInstallDirectory fs home install_dir gd sid dr now).1.success = false ∧
    (cleanupGameInstallDirectory fs home install_dir gd sid dr now).2 = fs := by
  have hany : criticalChecks.any (fun c => strContains (strToLower install_dir) c) = true :=
    List.any_eq_true.mpr ⟨"opt", by decide, h⟩
  have hm : mNoCriticalFragment install_dir = false := by
    simp [mNoCriticalFragment, hany]
  exact cleanup_rejected fs home install_dir gd sid dr now
    (Or.inr (by simp [multipleConfirmations, hm]))

/-- Witness for C10: a directory under the allowed base /opt/steam is
nevertheless rejected with no mutation. -/
theorem c10_opt_fragment_rejected_witness :
    strContains (strToLower "/opt/steam/steamapps/common/mygame") "opt" = true ∧
    ((cleanupGameInstallDirectory demoFS "/home/u" "/opt/steam/steamapps/common/mygame" demoGD "sess123" false "T1").1.success = false ∧
     (cleanupGameInstallDirectory demoFS "/home/u" "/opt/steam/steamapps/common/mygame" demoGD "sess123" false "T1").2 = demoFS) :=
  ⟨by decide,
   c10_opt_fragment_rejected demoFS "/home/u" "/opt/steam/steamapps/common/mygame"
     demoGD "sess123" false "T1" (by decide)⟩

/-- C6 counterexample: on a record whose acf filename does not match
its appid, `delete_game` fails with zero removals, but the returned
message is the generic "Safety validation failed for game <name>" —
it does not contain "mismatch" (that text goes only to the logger). -/
theorem c6_counterexample :
    strEndsWith giMismatch.acf_path ("appmanifest_" ++ giMismatch.appid ++ ".acf") = false ∧
    (deleteGame demoLibFS giMismatch false).1.success = false ∧
    (deleteGame demoLibFS giMismatch false).2 = demoLibFS ∧
    (deleteGame demoLibFS giMismatch false).1.message
      = "Safety validation failed for game MyGame" ∧
    strContains (deleteGame demoLibFS giMismatch false).1.message "mismatch" = false := by
  decide

/-- C6 (amended): for every record whose `acf_path` does not end with
`appmanifest_<app_id>.acf`, `delete_game` returns `success = false`
with the message "Safety validation failed for game <name>" (the
mismatch detail is only logged, not returned) and removes nothing. -/
theorem c6_mismatch_rejected (fs : FSNode) (gi : GameInfo) (dc : Bool)
    (h : strEndsWith gi.acf_path ("appmanifest_" ++ gi.appid ++ ".acf") = false) :
    (deleteGame fs gi dc).1.success = false ∧
    (deleteGame fs gi dc).1.message = "Safety validation failed for game " ++ gi.name ∧
    (deleteGame fs gi dc).2 = fs := by
  have hv : validateDeletionSafety fs gi = false := by
    simp [validateDeletionSafety, h]
  unfold deleteGame
  simp [hv]

/-- Witness for C6 (amended) at the concrete mismatched record. -/
theorem c6_mismatch_rejected_witness :
    strEndsWith giMismatch.acf_path ("appmanifest_" ++ giMismatch.appid ++ ".acf") = false ∧
    ((deleteGame demoLibFS giMismatch true).1.success = false ∧
     (deleteGame demoLibFS giMismatch true).1.message
       = "Safety validation failed for game " ++ giMismatch.name ∧
     (deleteGame demoLibFS giMismatch true).2 = demoLibFS) :=
  ⟨by decide, c6_mismatch_rejected demoLibFS giMismatch true (by decide)⟩

/-- C7 counterexample: the scanner replaces the name "App_Foo" by the
install-directory name "Bar" although "App_Foo" does not match the
placeholder pattern `App_<digits>` — the code tests only
`name.startswith('App_')`. -/
theorem c7_counterexample :
    parseAcfFile (fsDir []) c7content "/x/appmanifest_123.acf" "/lib" = some c7gi ∧
    specPlaceholderAppDigits c7gi.name = false ∧
    c7gi.display_name = "Bar" ∧
    "Bar" ≠ c7gi.name := by decide

/-- C7 (amended): for every manifest successfully parsed, the record's
`display_name` equals the manifest `name` unless the name starts with
"App_" (any suffix, not only digits), in which case it equals the
`installdir`. -/
theorem c7_display_name_fallback (fs : FSNode) (content acf lib : String) (gi : GameInfo)
    (h : parseAcfFile fs content acf lib = some gi) :
    gi.display_name = if strStartsWith gi.name "App_" then gi.installdir else gi.name := by
  unfold parseAcfFile at h
  rcases ha : reSearchKV "appid" true content with _ | a <;> rw [ha] at h
  · simp at h
  rcases hn : reSearchKV "name" false content with _ | n <;> rw [hn] at h
  · simp at h
  rcases hi : reSearchKV "installdir" false content with _ | i <;> rw [hi] at h
  · simp at h
  simp at h
  subst h
  rfl

/-- Witness for C7 (amended) at the concrete manifest. -/
theorem c7_display_name_fallback_witness :
    parseAcfFile (fsDir []) c7content "/x/appmanifest_123.acf" "/lib" = some c7gi ∧
    c7gi.display_name
      = (if strStartsWith c7gi.name "App_" then c7gi.installdir else c7gi.name) :=
  ⟨by decide,
   c7_display_name_fallback (fsDir []) c7content "/x/appmanifest_123.acf" "/lib" c7gi (by decide)⟩

theorem sumRemovalSizes_append (xs ys : List Removal) :
    sumRemovalSizes (xs ++ ys) = sumRemovalSizes xs + sumRemovalSizes ys := by
  simp [sumRemovalSizes]

/-- The wipe loop keeps `size` equal to the sum of the recorded
removal sizes. -/
theorem completeCleanupLoop_size_eq (d : String) (dr : Bool) (names : List String) :
    ∀ (fs : FSNode) (acc : CompleteResult), acc.size = sumRemovalSizes acc.removals →
      (completeCleanupLoop d dr names fs acc).1.size
        = sumRemovalSizes (completeCleanupLoop d dr names fs acc).1.removals := by
  induction names with
  | nil => intro fs acc h; simpa [completeCleanupLoop] using h
  | cons name rest ih =>
    intro fs acc h
    unfold completeCleanupLoop
    rcases hl : fsLookup fs (pathJoin d name) with _ | node
    · simp only [hl]
      exact ih fs acc h
    · rcases node with ⟨fsize, log⟩ | cs
      · simp only [hl]
        exact ih _ _ (by simp [sumRemovalSizes_append, sumRemovalSizes, h])
      · simp only [hl]
        exact ih _ _ (by simp [sumRemovalSizes_append, sumRemovalSizes, h])

theorem completeDirectoryCleanup_size_eq (fs : FSNode) (d : String) (dr : Bool) :
    (completeDirectoryCleanup fs d dr).1.size
      = sumRemovalSizes (completeDirectoryCleanup fs d dr).1.removals := by
  unfold completeDirectoryCleanup
  rcases hl : fsLookup fs d with _ | node
  · simp [sumRemovalSizes]
  · rcases node with ⟨fsize, log⟩ | cs
    · simp [sumRemovalSizes]
    · exact completeCleanupLoop_size_eq d dr cs.names fs ⟨0, 0, 0, []⟩ (by simp [sumRemovalSizes])

theorem round2_zero : round2 0 = 0 := by
  rw [round2, pythonRound]; norm_num

/-- C5 (amended): in every result of `cleanup_game_install_directory`
the sum of `removals[].size` equals the byte total from which the
reported freed-space figure is computed; the result carries no exact
`space_freed_bytes` field, only `space_freed_mb = round(bytes/2^20, 2)`. -/
theorem c5_space_freed_rounded (fs : FSNode) (home install_dir : String)
    (gd : GameData) (sid : String) (dr : Bool) (now : String) :
    (cleanupGameInstallDirectory fs home install_dir gd sid dr now).1.space_freed_mb
      = round2 ((sumRemovalSizes
          (cleanupGameInstallDirectory fs home install_dir gd sid dr now).1.removals : ℚ)
            / (1024 * 1024)) := by
  unfold cleanupGameInstallDirectory
  rcases hu : verifyUltraSafetyChecks fs home install_dir gd sid
  · simp [sumRemovalSizes, round2_zero]
  rcases hm : multipleConfirmations fs install_dir gd sid
  · simp [hu, sumRemovalSizes, round2_zero]
  have hsz := completeDirectoryCleanup_size_eq fs install_dir dr
  rcases hcd : completeDirectoryCleanup fs install_dir dr with ⟨cr, fs1⟩
  rw [hcd] at hsz
  simp only at hsz
  simp [hu, hm, hcd]
  rw [hsz]

/-- C5 counterexample: a successful run whose removals sizes sum to 12
bytes reports `space_freed_mb = 0`; no field of the result equals the
byte sum "exactly" — the claim's `space_freed_bytes` does not exist and
the rounded MB figure differs from the sum. -/
theorem c5_counterexample :
    sumRemovalSizes
        (cleanupGameInstallDirectory demoFS "/home/u" demoDir demoGD "sess123" false "T1").1.removals
      = 12 ∧
    (cleanupGameInstallDirectory demoFS "/home/u" demoDir demoGD "sess123" false "T1").1.space_freed_mb
      ≠ (sumRemovalSizes
          (cleanupGameInstallDirectory demoFS "/home/u" demoDir demoGD "sess123" false "T1").1.removals : ℚ) := by
  constructor
  · decide
  · have h1 :
        (cleanupGameInstallDirectory demoFS "/home/u" demoDir demoGD "sess123" false "T1").1.space_freed_mb
          = round2 ((12 : ℚ) / (1024 * 1024)) := rfl
    have h2 :
        sumRemovalSizes
            (cleanupGameInstallDirectory demoFS "/home/u" demoDir demoGD "sess123" false "T1").1.removals
          = 12 := by decide
    rw [h1, h2, round2, pythonRound]
    norm_num

/-- The paths removed by the `_cleanup_current_directory` loop are
exactly joins of `cwd` with the fixed temp-file names. -/
theorem cleanupCurrentDirLoop_paths (cwd : String) (names : List String) :
    ∀ (fs : FSNode) (p : String), p ∈ (cleanupCurrentDirLoop cwd names fs).2 →
      ∃ n ∈ names, p = pathJoin cwd n := by
  induction names with
  | nil => intro fs p hp; simp [cleanupCurrentDirLoop] at hp
  | cons name rest ih =>
    intro fs p hp
    unfold cleanupCurrentDirLoop at hp
    rcases he : fsExists fs (pathJoin cwd name)
    · simp only [he, Bool.false_eq_true, if_false] at hp
      obtain ⟨n, hn, hpn⟩ := ih fs p hp
      exact ⟨n, List.mem_cons_of_mem _ hn, hpn⟩
    · simp only [he, if_true] at hp
      rcases List.mem_cons.mp hp with h | h
      · exact ⟨name, List.mem_cons_self _ _, h⟩
      · obtain ⟨n, hn, hpn⟩ := ih _ p h
        exact ⟨n, List.mem_cons_of_mem _ hn, hpn⟩

/-- C3 counterexample: `FileCleanupManager._cleanup_current_directory`
recursively deletes `<cwd>/manifest` — a real directory with game data
— although that path passes none of the section-4 safety checks
(`steamapps`/`common` containment, ultra safety checks, the
SafeDeletionEngine validation) and neither partial-file classifier
marks "manifest" as temporary. -/
theorem c3_counterexample :
    (cleanupCurrentDirectory c3FS "/home/user/accela").2 = ["/home/user/accela/manifest"] ∧
    (cleanupCurrentDirectory c3FS "/home/user/accela").1 ≠ c3FS ∧
    fsLookup (cleanupCurrentDirectory c3FS "/home/user/accela").1 "/home/user/accela/manifest" = none ∧
    uSteamappsCommon "/home/user/accela/manifest" = false ∧
    strContains "/home/user/accela/manifest" "common" = false ∧
    verifyUltraSafetyChecks c3FS "/home/user" "/home/user/accela/manifest"
      ⟨some "manifest", some "1"⟩ "sess123" = false ∧
    validateDeletionSafety c3FS
      ⟨"1", "manifest", "manifest", "manifest", "/x/appmanifest_1.acf",
       "/home/user/accela/manifest", "/home/user/accela", 9⟩ = false ∧
    gicIsPartFile "manifest" "sess123" = false ∧
    fcIsPartFile "manifest" "sess123" = false := by decide

/-- C3 (amended): the two deletion engines perform no filesystem
mutation unless their section-4 validations pass, but
`FileCleanupManager.cleanup_partial_download` is not gated by those
checks: its current-directory step deletes exactly the fixed temp
names (`keys.vdf`, `manifest`, `appinfo.vdf`) joined to the working
directory, whether or not any section-4 check holds for them. -/
theorem c3_destructive_gating (fs : FSNode) :
    (∀ (home install_dir : String) (gd : GameData) (sid now : String) (dr : Bool),
       (verifyUltraSafetyChecks fs home install_dir gd sid = false ∨
        multipleConfirmations fs install_dir gd sid = false) →
       (cleanupGameInstallDirectory fs home install_dir gd sid dr now).2 = fs) ∧
    (∀ (gi : GameInfo) (dc : Bool), validateDeletionSafety fs gi = false →
       (deleteGame fs gi dc).2 = fs) ∧
    (∀ (cwd p : String), p ∈ (cleanupCurrentDirectory fs cwd).2 →
       ∃ n ∈ fcTempFiles, p = pathJoin cwd n) := by
  refine ⟨?_, ?_, ?_⟩
  · intro home install_dir gd sid now dr h
    exact (cleanup_rejected fs home install_dir gd sid dr now h).2
  · intro gi dc hv
    unfold deleteGame
    simp [hv]
  · intro cwd p hp
    exact cleanupCurrentDirLoop_paths cwd fcTempFiles fs p hp

/-- Witness for C3 (amended): each conjunct applied at a concrete
input. -/
theorem c3_destructive_gating_witness :
    (cleanupGameInstallDirectory demoFS "/home/u" demoDir demoGD "" false "T1").2 = demoFS ∧
    (deleteGame demoLibFS giMismatch false).2 = demoLibFS ∧
    (∃ n ∈ fcTempFiles, "/home/user/accela/manifest" = pathJoin "/home/user/accela" n) :=
  ⟨(c3_destructive_gating demoFS).1 "/home/u" demoDir demoGD "" "T1" false
     (Or.inr (by decide)),
   (c3_destructive_gating demoLibFS).2.1 giMismatch false (by decide),
   (c3_destructive_gating c3FS).2.2 "/home/user/accela" "/home/user/accela/manifest" (by decide)⟩

/-! ## Path lemmas -/

/-- Splitting distributes over an explicit '/' separator. -/
theorem splitComps_append_slash (xs : List Char) :
    ∀ (cur ys : List Char),
      splitComps (xs ++ '/' :: ys) cur = splitComps xs cur ++ splitComps ys [] := by
  induction xs with
  | nil =>
    intro cur ys
    simp only [List.nil_append, splitComps]
    rcases cur with _ | ⟨c, cur⟩ <;> simp [splitComps]
  | cons c xs ih =>
    intro cur ys
    simp only [List.cons_append, splitComps]
    by_cases hc : c = '/'
    · subst hc
      simp only [if_pos rfl]
      rcases cur with _ | ⟨c', cur⟩ <;> simp [splitComps, ih]
    · simp only [if_neg hc]
      exact ih _ ys

/-- A run of slash-free characters is one chunk. -/
theorem splitComps_no_slash (cs : List Char) :
    ∀ (cur : List Char), (∀ c ∈ cs, c ≠ '/') → cur ≠ [] ∨ cs ≠ [] →
      splitComps cs cur = [String.mk (cur.reverse ++ cs)] := by
  induction cs with
  | nil =>
    intro cur _ hne
    rcases cur with _ | ⟨c, cur⟩
    · rcases hne with h | h <;> simp at h
    · simp [splitComps]
  | cons c cs ih =>
    intro cur hns _
    have hc : c ≠ '/' := hns c (List.mem_cons_self _ _)
    simp only [splitComps, if_neg hc]
    have := ih (c :: cur) (fun x hx => hns x (List.mem_cons_of_mem _ hx)) (Or.inl (by simp))
    rw [this]
    simp

/-- A valid entry name splits to itself. -/
theorem pathSplit_single (n : String) (h : validName n = true) : pathSplit n = [n] := by
  have hdata : n.data ≠ [] := by
    intro hd
    have : n = "" := by
      cases n
      simp at hd
      simp [hd]
    rw [validName, this] at h
    simp at h
  have hns : ∀ c ∈ n.data, c ≠ '/' := by
    intro c hc hceq
    subst hceq
    rw [validName] at h
    simp only [Bool.and_eq_true, decide_eq_true_eq] at h
    exact absurd hc (by simpa using h.2)
  rw [pathSplit, splitComps_no_slash n.data [] hns (Or.inr hdata)]
  simp

/-- Splitting a join appends the (valid) final component. -/
theorem pathSplit_join (d n : String) (hn : validName n = true) :
    pathSplit (pathJoin d n) = pathSplit d ++ [n] := by
  have hd : (d ++ "/" ++ n).data = d.data ++ '/' :: n.data := by
    simp [String.data_append]
  rw [pathJoin, pathSplit, hd, splitComps_append_slash]
  rw [pathSplit] at *
  congr 1
  have := pathSplit_single n hn
  rw [pathSplit] at this
  exact this

/-- Normalization commutes with appending a non-dot component. -/
theorem normComps_append_valid (xs : List String) :
    ∀ (acc : List String) (n : String), n ≠ "." → n ≠ ".." →
      normComps (xs ++ [n]) acc = normComps xs acc ++ [n] := by
  induction xs with
  | nil =>
    intro acc n h1 h2
    simp [normComps, h1, h2]
  | cons c xs ih =>
    intro acc n h1 h2
    simp only [List.cons_append, normComps]
    by_cases hc1 : c = "."
    · simp only [if_pos hc1]
      exact ih acc n h1 h2
    · simp only [if_neg hc1]
      by_cases hc2 : c = ".."
      · simp only [if_pos hc2]
        exact ih acc.tail n h1 h2
      · simp only [if_neg hc2]
        exact ih (c :: acc) n h1 h2

/-- A valid name is not "." or "..". -/
theorem validName_ne_dots (n : String) (h : validName n = true) :
    n ≠ "." ∧ n ≠ ".." := by
  rw [validName] at h
  simp only [Bool.and_eq_true, decide_eq_true_eq] at h
  exact ⟨h.1.1.2, h.1.2⟩

/-- Looking up a concatenation navigates in two stages. -/
theorem FSNode.lookup_append (xs : List String) :
    ∀ (ys : List String) (fs : FSNode),
      fs.lookup (xs ++ ys)
        = match fs.lookup xs with
          | some node => node.lookup ys
          | none => none := by
  induction xs with
  | nil => intro ys fs; simp [FSNode.lookup]
  | cons c xs ih =>
    intro ys fs
    rcases fs with ⟨s, l⟩ | cs
    · simp [FSNode.lookup]
    · simp only [List.cons_append, FSNode.lookup]
      rcases cs.findName c with _ | child
      · rfl
      · exact ih ys child

theorem FSList.findName_wf : ∀ (cs : FSList), cs.wf = true → ∀ (c : String) (child : FSNode),
    cs.findName c = some child → child.wf = true
  | .nil => by intro h c child hf; simp [FSList.findName] at hf
  | .cons n node rest => by
    intro hwf c child hf
    unfold FSList.wf at hwf
    simp only [Bool.and_eq_true] at hwf
    unfold FSList.findName at hf
    by_cases hnc : n = c
    · rw [if_pos hnc] at hf
      cases hf
      exact hwf.1.2
    · rw [if_neg hnc] at hf
      exact FSList.findName_wf rest hwf.2 c child hf

theorem FSNode.lookup_wf : ∀ (comps : List String) (fs : FSNode), fs.wf = true →
    ∀ (n : FSNode), fs.lookup comps = some n → n.wf = true
  | [], fs => by
    intro hwf n h
    simp [FSNode.lookup] at h
    exact h ▸ hwf
  | c :: rest, fs => by
    intro hwf n h
    rcases fs with ⟨s, l⟩ | cs
    · simp [FSNode.lookup] at h
    · unfold FSNode.lookup at h
      rcases hf : cs.findName c with _ | child
      · rw [hf] at h; simp at h
      · rw [hf] at h
        have hcw : child.wf = true :=
          FSList.findName_wf cs (by unfold FSNode.wf at hwf; exact hwf) c child hf
        exact FSNode.lookup_wf rest child hcw n h

theorem FSList.names_wf : ∀ (cs : FSList), cs.wf = true →
    ∀ n ∈ cs.names, validName n = true
  | .nil => by intro h n hn; simp [FSList.names] at hn
  | .cons m node rest => by
    intro hwf n hn
    unfold FSList.wf at hwf
    simp only [Bool.and_eq_true] at hwf
    unfold FSList.names at hn
    rcases List.mem_cons.mp hn with h | h
    · subst h; exact hwf.1.1
    · exact FSList.names_wf rest hwf.2 n h

/-- Looking up one more (valid) component under a directory. -/
theorem fsLookup_child (fs : FSNode) (d n : String) (cs : FSList)
    (hd : fsLookup fs d = some (.dir cs)) (hn : validName n = true) :
    fsLookup fs (pathJoin d n) = cs.findName n := by
  obtain ⟨h1, h2⟩ := validName_ne_dots n hn
  rw [fsLookup, pathSplit_join d n hn, normComps_append_valid _ _ n h1 h2,
    FSNode.lookup_append]
  rw [fsLookup] at hd
  rw [hd]
  rcases hf : cs.findName n with _ | child <;> simp [FSNode.lookup, hf]

/-- In dry-run mode the wipe loop never changes the filesystem. -/
theorem completeCleanupLoop_dry_fs (d : String) (names : List String) :
    ∀ (fs : FSNode) (acc : CompleteResult),
      (completeCleanupLoop d true names fs acc).2 = fs := by
  induction names with
  | nil => intro fs acc; simp [completeCleanupLoop]
  | cons name rest ih =>
    intro fs acc
    unfold completeCleanupLoop
    rcases hl : fsLookup fs (pathJoin d name) with _ | node
    · simp only [hl]; exact ih fs acc
    · rcases node with ⟨s, l⟩ | cs
      · simp only [hl, if_true]; exact ih fs _
      · simp only [hl, if_true]; exact ih fs _

/-- The already-recorded removals are a prefix of the final ones. -/
theorem completeCleanupLoop_removals_prefix (d : String) (dr : Bool) (names : List String) :
    ∀ (fs : FSNode) (acc : CompleteResult),
      acc.removals <+: (completeCleanupLoop d dr names fs acc).1.removals := by
  induction names with
  | nil => intro fs acc; simp [completeCleanupLoop]
  | cons name rest ih =>
    intro fs acc
    unfold completeCleanupLoop
    rcases hl : fsLookup fs (pathJoin d name) with _ | node
    · simp only [hl]; exact ih fs acc
    · rcases node with ⟨s, l⟩ | cs
      · simp only [hl]
        refine List.IsPrefix.trans ?_ (ih _ _)
        simp
      · simp only [hl]
        refine List.IsPrefix.trans ?_ (ih _ _)
        simp

/-- If the first snapshot item is found on disk, the wipe loop records
at least one removal. -/
theorem completeCleanupLoop_cons_ne_nil (d : String) (dr : Bool) (name : String)
    (names : List String) (fs : FSNode) (acc : CompleteResult) (node : FSNode)
    (hl : fsLookup fs (pathJoin d name) = some node) :
    (completeCleanupLoop d dr (name :: names) fs acc).1.removals ≠ [] := by
  intro hnil
  unfold completeCleanupLoop at hnil
  rcases node with ⟨s, l⟩ | cs
  · simp only [hl] at hnil
    have hp := completeCleanupLoop_removals_prefix d dr names
      (if dr = true then fs else fsRemove fs (pathJoin d name))
      { files_removed := acc.files_removed + 1, dirs_removed := acc.dirs_removed,
        size := acc.size + s,
        removals := acc.removals ++ [⟨"file", pathJoin d name, s, "complete_cleanup"⟩] }
    rw [hnil] at hp
    simp at hp
  · simp only [hl] at hnil
    have hp := completeCleanupLoop_removals_prefix d dr names
      (if dr = true then fs else fsRemove fs (pathJoin d name))
      { files_removed := acc.files_removed, dirs_removed := acc.dirs_removed + 1,
        size := acc.size + getDirectorySize fs (pathJoin d name),
        removals := acc.removals ++
          [⟨"directory", pathJoin d name, getDirectorySize fs (pathJoin d name), "complete_cleanup"⟩] }
    rw [hnil] at hp
    simp at hp

/-- C4: a dry-run invocation of `cleanup_game_install_directory` on a
validated target directory with at least one child entry returns a
non-empty `removals` list and leaves the filesystem byte-for-byte
unchanged (in particular no removal-log file is written). -/
theorem c4_dry_run_noop (fs : FSNode) (home install_dir : String) (gd : GameData)
    (sid now : String)
    (hwf : fs.wf = true)
    (hu : verifyUltraSafetyChecks fs home install_dir gd sid = true)
    (hm : multipleConfirmations fs install_dir gd sid = true)
    (cs : FSList) (hdir : fsLookup fs install_dir = some (.dir cs)) (hne : cs ≠ .nil) :
    (cleanupGameInstallDirectory fs home install_dir gd sid true now).1.removals ≠ [] ∧
    (cleanupGameInstallDirectory fs home install_dir gd sid true now).2 = fs := by
  rcases cs with _ | ⟨n0, c0, rest⟩
  · exact absurd rfl hne
  have hw : (FSNode.dir (FSList.cons n0 c0 rest)).wf = true :=
    FSNode.lookup_wf _ fs hwf _ (by simpa [fsLookup] using hdir)
  have hvn : validName n0 = true :=
    FSList.names_wf _ (by unfold FSNode.wf at hw; exact hw) n0 (by simp [FSList.names])
  have hlook : fsLookup fs (pathJoin install_dir n0) = some c0 := by
    rw [fsLookup_child fs install_dir n0 _ hdir hvn]
    simp [FSList.findName]
  have hnames : (FSList.cons n0 c0 rest).names = n0 :: rest.names := rfl
  rcases hlp : completeCleanupLoop install_dir true (n0 :: rest.names) fs ⟨0, 0, 0, []⟩
    with ⟨cr, fs1⟩
  have hcd : completeDirectoryCleanup fs install_dir true = (cr, fs1) := by
    unfold completeDirectoryCleanup
    rw [hdir]
    simpa [FSList.names] using hlp
  have hrm : cr.removals ≠ [] := by
    have := completeCleanupLoop_cons_ne_nil install_dir true n0 rest.names fs ⟨0, 0, 0, []⟩ c0 hlook
    rw [hlp] at this
    simpa using this
  have hfs : fs1 = fs := by
    have := completeCleanupLoop_dry_fs install_dir (n0 :: rest.names) fs ⟨0, 0, 0, []⟩
    rw [hlp] at this
    simpa using this
  unfold cleanupGameInstallDirectory
  simp [hu, hm, hcd, hrm, hfs]

/-- Witness for C4 at a concrete validated directory with two children:
dry run returns removals and changes nothing. -/
theorem c4_dry_run_noop_witness :
    demoFS.wf = true ∧
    verifyUltraSafetyChecks demoFS "/home/u" demoDir demoGD "sess123" = true ∧
    multipleConfirmations demoFS demoDir demoGD "sess123" = true ∧
    ((cleanupGameInstallDirectory demoFS "/home/u" demoDir demoGD "sess123" true "T1").1.removals ≠ [] ∧
     (cleanupGameInstallDirectory demoFS "/home/u" demoDir demoGD "sess123" true "T1").2 = demoFS) :=
  ⟨by decide, by decide, by decide,
   c4_dry_run_noop demoFS "/home/u" demoDir demoGD "sess123" "T1"
     (by decide) (by decide) (by decide)
     (FSList.cons "a.tmp" (fsFile 7) (FSList.cons "sub" (fsDir [("b.dat", fsFile 5)]) FSList.nil))
     (by decide) (by decide)⟩

/-- C9: evaluation of the code at the failing input.  A successful
non-dry-run cleanup that removed two objects (a 7-byte file and a
5-byte directory) writes a log file named with the session id into the
cleaned directory, and `get_removal_log` reads it back — but the
persisted `removals` list is empty, because `self.removal_log` is
initialized at line 130 and never appended to:
`_complete_directory_cleanup` records removals only in its local
result dict.  The log does not list the objects actually removed. -/
theorem c9_log_omits_removals :
    (cleanupGameInstallDirectory demoFS "/home/u" demoDir demoGD "sess123" false "T1").1.success = true ∧
    (cleanupGameInstallDirectory demoFS "/home/u" demoDir demoGD "sess123" false "T1").1.removals
      = [⟨"file", "/home/u/.steam/steam/steamapps/common/mygame/a.tmp", 7, "complete_cleanup"⟩,
         ⟨"directory", "/home/u/.steam/steam/steamapps/common/mygame/sub", 5, "complete_cleanup"⟩] ∧
    fsLookup (cleanupGameInstallDirectory demoFS "/home/u" demoDir demoGD "sess123" false "T1").2
        (pathJoin demoDir ".accela_cleanup_log_sess123.json")
      = some (.file 0 (some ⟨"T1", demoDir, demoGD, "sess123", []⟩)) ∧
    getRemovalLog (cleanupGameInstallDirectory demoFS "/home/u" demoDir demoGD "sess123" false "T1").2 demoDir
      = [⟨"T1", demoDir, demoGD, "sess123", []⟩] := by
  decide

/-- Every chunk produced by `splitComps` is nonempty and slash-free. -/
theorem splitComps_chunks : ∀ (cs cur : List Char), (∀ c ∈ cur, c ≠ '/') →
    ∀ s ∈ splitComps cs cur, s ≠ "" ∧ ∀ ch ∈ s.data, ch ≠ '/'
  | [], cur => by
    intro hcur s hs
    rcases cur with _ | ⟨c, cur⟩
    · simp [splitComps] at hs
    · simp only [splitComps, List.isEmpty_cons, Bool.false_eq_true, if_false,
        List.mem_singleton] at hs
      subst hs
      constructor
      · intro h
        have := congrArg String.data h
        simp at this
      · intro ch hch
        simp only [String.data] at hch
        rcases (by simpa using hch : ch ∈ cur ∨ ch = c) with h' | h'
        · exact hcur ch (List.mem_cons_of_mem _ h')
        · subst h'
          exact hcur ch (List.mem_cons_self _ _)
  | c :: cs, cur => by
    intro hcur s hs
    by_cases hc : c = '/'
    · subst hc
      rcases cur with _ | ⟨c', cur⟩
      · simp only [splitComps, List.isEmpty_nil, if_true, reduceIte] at hs
        exact splitComps_chunks cs [] (by simp) s hs
      · simp only [splitComps, List.isEmpty_cons, Bool.false_eq_true, if_false, if_true,
          reduceIte, List.mem_cons] at hs
        rcases hs with hs | hs
        · subst hs
          constructor
          · intro h
            have := congrArg String.data h
            simp at this
          · intro ch hch
            simp only [String.data] at hch
            rcases (by simpa using hch : ch ∈ cur ∨ ch = c') with h' | h'
            · exact hcur ch (List.mem_cons_of_mem _ h')
            · subst h'
              exact hcur ch (List.mem_cons_self _ _)
        · exact splitComps_chunks cs [] (by simp) s hs
    · simp only [splitComps, if_neg hc] at hs
      refine splitComps_chunks cs (c :: cur) ?_ s hs
      intro x hx
      rcases List.mem_cons.mp hx with h | h
      · subst h; exact hc
      · exact hcur x h

/-- Elements of the normalized list come from the input (minus dots) or
from the accumulator. -/
theorem normComps_mem (xs : List String) :
    ∀ (acc : List String) (s : String), s ∈ normComps xs acc →
      s ∈ acc ∨ (s ∈ xs ∧ s ≠ "." ∧ s ≠ "..") := by
  induction xs with
  | nil =>
    intro acc s h
    simp only [normComps] at h
    exact Or.inl (by simpa using h)
  | cons c xs ih =>
    intro acc s h
    simp only [normComps] at h
    by_cases h1 : c = "."
    · rw [if_pos h1] at h
      rcases ih acc s h with h' | ⟨h2, h3, h4⟩
      · exact Or.inl h'
      · exact Or.inr ⟨List.mem_cons_of_mem _ h2, h3, h4⟩
    · rw [if_neg h1] at h
      by_cases h2 : c = ".."
      · rw [if_pos h2] at h
        rcases ih acc.tail s h with h' | ⟨h3, h4, h5⟩
        · rcases acc with _ | ⟨a, acc⟩
          · simp at h'
          · exact Or.inl (List.mem_cons_of_mem _ (by simpa using h'))
        · exact Or.inr ⟨List.mem_cons_of_mem _ h3, h4, h5⟩
      · rw [if_neg h2] at h
        rcases ih (c :: acc) s h with h' | ⟨h3, h4, h5⟩
        · rcases List.mem_cons.mp h' with h'' | h''
          · subst h''
            exact Or.inr ⟨List.mem_cons_self _ _, h1, h2⟩
          · exact Or.inl h''
        · exact Or.inr ⟨List.mem_cons_of_mem _ h3, h4, h5⟩

/-- The normalized components of any path string are valid names. -/
theorem normComps_pathSplit_valid (p : String) :
    ∀ s ∈ normComps (pathSplit p) [], validName s = true := by
  intro s hs
  rcases normComps_mem (pathSplit p) [] s hs with h | ⟨h1, h2, h3⟩
  · simp at h
  · obtain ⟨hne, hns⟩ := splitComps_chunks p.data [] (by simp) s h1
    have hmem : '/' ∉ s.data := fun h => hns '/' h rfl
    simp [validName, hne, h2, h3, hmem]

/-- Joining valid components and splitting is the identity. -/
theorem pathSplit_joinSlash : ∀ (cs : List String),
    (∀ s ∈ cs, validName s = true) → pathSplit (joinSlash cs) = cs
  | [] => by intro h; rfl
  | [c] => by
    intro h
    exact pathSplit_single c (h c (List.mem_singleton_self c))
  | c :: c' :: rest => by
    intro h
    have hd : (c ++ "/" ++ joinSlash (c' :: rest)).data
        = c.data ++ '/' :: (joinSlash (c' :: rest)).data := by simp
    rw [joinSlash, pathSplit, hd, splitComps_append_slash]
    have h1 : splitComps c.data [] = [c] := by
      have := pathSplit_single c (h c (List.mem_cons_self _ _))
      rwa [pathSplit] at this
    have h2 : splitComps (joinSlash (c' :: rest)).data [] = c' :: rest := by
      have := pathSplit_joinSlash (c' :: rest)
        (fun s hs => h s (List.mem_cons_of_mem _ hs))
      rwa [pathSplit] at this
    rw [h1, h2]
    rfl

/-- Splitting a resolved path gives the normalized components. -/
theorem pathSplit_resolvePath (p : String) :
    pathSplit (resolvePath p) = normComps (pathSplit p) [] := by
  rw [resolvePath]
  have h1 : ∀ (x : String), pathSplit ("/" ++ x) = pathSplit x := by
    intro x
    have hd : ("/" ++ x).data = '/' :: x.data := by simp
    rw [pathSplit, pathSplit, hd]
    simp [splitComps]
  rw [h1]
  exact pathSplit_joinSlash _ (normComps_pathSplit_valid p)

/-- Resolving a join of a directory with a valid entry name appends
exactly that component. -/
theorem pathSplit_resolve_join (d n : String) (hn : validName n = true) :
    pathSplit (resolvePath (pathJoin d n)) = pathSplit (resolvePath d) ++ [n] := by
  obtain ⟨h1, h2⟩ := validName_ne_dots n hn
  rw [pathSplit_resolvePath, pathSplit_resolvePath, pathSplit_join d n hn,
    normComps_append_valid _ _ n h1 h2]

/-- Every removal recorded by the wipe loop is either inherited from the
accumulator or a join of the target directory with a snapshot name. -/
theorem completeCleanupLoop_removals_mem (d : String) (dr : Bool) (names : List String) :
    ∀ (fs : FSNode) (acc : CompleteResult) (r : Removal),
      r ∈ (completeCleanupLoop d dr names fs acc).1.removals →
      r ∈ acc.removals ∨ ∃ n ∈ names, r.path = pathJoin d n := by
  induction names with
  | nil =>
    intro fs acc r h
    simp only [completeCleanupLoop] at h
    exact Or.inl h
  | cons name rest ih =>
    intro fs acc r h
    unfold completeCleanupLoop at h
    rcases hl : fsLookup fs (pathJoin d name) with _ | node
    · simp only [hl] at h
      rcases ih _ _ r h with h' | ⟨n, hn, hp⟩
      · exact Or.inl h'
      · exact Or.inr ⟨n, List.mem_cons_of_mem _ hn, hp⟩
    · rcases node with ⟨s, l⟩ | cs
      · simp only [hl] at h
        rcases ih _ _ r h with h' | ⟨n, hn, hp⟩
        · simp only [List.mem_append, List.mem_singleton] at h'
          rcases h' with h' | h'
          · exact Or.inl h'
          · exact Or.inr ⟨name, List.mem_cons_self _ _, by rw [h']⟩
        · exact Or.inr ⟨n, List.mem_cons_of_mem _ hn, hp⟩
      · simp only [hl] at h
        rcases ih _ _ r h with h' | ⟨n, hn, hp⟩
        · simp only [List.mem_append, List.mem_singleton] at h'
          rcases h' with h' | h'
          · exact Or.inl h'
          · exact Or.inr ⟨name, List.mem_cons_self _ _, by rw [h']⟩
        · exact Or.inr ⟨n, List.mem_cons_of_mem _ hn, hp⟩

/-- C1: in every successful run of `cleanup_game_install_directory` on
a well-formed filesystem, each path recorded in the result's removals
list is a proper descendant of the validated target install directory:
its resolved components strictly extend the target's resolved
components, so no performed or recorded removal escapes the target
subtree. -/
theorem c1_removals_in_target_subtree (fs : FSNode) (home install_dir : String)
    (gd : GameData) (sid : String) (dr : Bool) (now : String)
    (hwf : fs.wf = true)
    (hs : (cleanupGameInstallDirectory fs home install_dir gd sid dr now).1.success = true) :
    ∀ r ∈ (cleanupGameInstallDirectory fs home install_dir gd sid dr now).1.removals,
      pathSplit (resolvePath install_dir) <+: pathSplit (resolvePath r.path) ∧
      (pathSplit (resolvePath install_dir)).length < (pathSplit (resolvePath r.path)).length := by
  intro r hr
  rcases hu : verifyUltraSafetyChecks fs home install_dir gd sid
  · have := (cleanup_rejected fs home install_dir gd sid dr now (Or.inl hu)).1
    rw [this] at hs
    cases hs
  rcases hm : multipleConfirmations fs install_dir gd sid
  · have := (cleanup_rejected fs home install_dir gd sid dr now (Or.inr hm)).1
    rw [this] at hs
    cases hs
  rcases hcd : completeDirectoryCleanup fs install_dir dr with ⟨cr, fs1⟩
  have hr' : r ∈ cr.removals := by
    unfold cleanupGameInstallDirectory at hr
    simp only [hu, hm, hcd, Bool.not_true, Bool.false_eq_true, if_false] at hr
    exact hr
  unfold completeDirectoryCleanup at hcd
  rcases hld : fsLookup fs install_dir with _ | node
  · rw [hld] at hcd
    have hcd' : ((⟨0, 0, 0, []⟩ : CompleteResult), fs) = (cr, fs1) := hcd
    simp only [Prod.mk.injEq] at hcd'
    rw [← hcd'.1] at hr'
    simp at hr'
  rcases node with ⟨s, l⟩ | cs
  · rw [hld] at hcd
    have hcd' : ((⟨0, 0, 0, []⟩ : CompleteResult), fs) = (cr, fs1) := hcd
    simp only [Prod.mk.injEq] at hcd'
    rw [← hcd'.1] at hr'
    simp at hr'
  rw [hld] at hcd
  have hcd' : completeCleanupLoop install_dir dr cs.names fs ⟨0, 0, 0, []⟩ = (cr, fs1) := hcd
  have hmem := completeCleanupLoop_removals_mem install_dir dr cs.names fs ⟨0, 0, 0, []⟩ r
    (by rw [hcd']; exact hr')
  rcases hmem with h0 | ⟨n, hn, hp⟩
  · simp at h0
  have hw : (FSNode.dir cs).wf = true :=
    FSNode.lookup_wf _ fs hwf _ (by simpa [fsLookup] using hld)
  have hvn : validName n = true :=
    FSList.names_wf cs (by unfold FSNode.wf at hw; exact hw) n hn
  rw [hp, pathSplit_resolve_join install_dir n hvn]
  exact ⟨List.prefix_append _ _, by simp⟩

/-- Witness for C1 at a concrete successful run with two removals. -/
theorem c1_removals_in_target_subtree_witness :
    demoFS.wf = true ∧
    (cleanupGameInstallDirectory demoFS "/home/u" demoDir demoGD "sess123" false "T1").1.success = true ∧
    (∀ r ∈ (cleanupGameInstallDirectory demoFS "/home/u" demoDir demoGD "sess123" false "T1").1.removals,
      pathSplit (resolvePath demoDir) <+: pathSplit (resolvePath r.path) ∧
      (pathSplit (resolvePath demoDir)).length < (pathSplit (resolvePath r.path)).length) :=
  ⟨by decide, by decide,
   c1_removals_in_target_subtree demoFS "/home/u" demoDir demoGD "sess123" false "T1"
     (by decide) (by decide)⟩

/-- Lowercasing does not change a digit. -/
theorem charToLower_of_isDigit (c : Char) (h : c.isDigit = true) : c.toLower = c := by
  rw [Char.toLower]
  rw [if_neg]
  rintro ⟨h1, h2⟩
  rw [Char.isDigit] at h
  simp only [Bool.and_eq_true, decide_eq_true_eq] at h
  have hle : c.val.toNat ≤ 57 := UInt32.toNat_le_of_le (by norm_num) h.2
  rw [Char.toNat] at h1
  omega

/-- Lowercasing does not change an all-digits string. -/
theorem strToLower_of_digits (s : String) (h : strIsDigit s = true) : strToLower s = s := by
  rw [strIsDigit] at h
  simp only [Bool.and_eq_true, List.all_eq_true, decide_eq_true_eq] at h
  rw [strToLower]
  have hmap : ∀ (l : List Char), (∀ x ∈ l, x.isDigit = true) → l.map Char.toLower = l := by
    intro l
    induction l with
    | nil => intro _; rfl
    | cons c cs ih =>
      intro hl
      simp only [List.map_cons]
      rw [charToLower_of_isDigit c (hl c (List.mem_cons_self _ _)),
        ih (fun x hx => hl x (List.mem_cons_of_mem _ hx))]
  rw [hmap s.data h.2]

/-- An all-digits string is a valid directory-entry name. -/
theorem validName_of_digits (s : String) (h : strIsDigit s = true) : validName s = true := by
  rw [strIsDigit] at h
  simp only [Bool.and_eq_true, List.all_eq_true, decide_eq_true_eq] at h
  have hnd : ∀ c ∈ s.data, c ≠ '/' := by
    intro c hc he
    subst he
    exact absurd (h.2 '/' hc) (by decide)
  have h2 : s ≠ "." := by
    intro he
    rw [he] at h
    exact absurd (h.2 '.' (by decide)) (by decide)
  have h3 : s ≠ ".." := by
    intro he
    rw [he] at h
    exact absurd (h.2 '.' (by decide)) (by decide)
  have h4 : '/' ∉ s.data := fun hm => hnd '/' hm rfl
  simp [validName, h.1, h2, h3, h4]

/-- `takeWhile` stops exactly at the first failing element. -/
theorem takeWhile_append_stop (p : α → Bool) (x : α) (l' : List α) :
    ∀ (l : List α), (∀ a ∈ l, p a = true) → p x = false →
      List.takeWhile p (l ++ x :: l') = l := by
  intro l
  induction l with
  | nil =>
    intro _ hx
    simp [List.takeWhile, hx]
  | cons a l ih =>
    intro hl hx
    simp only [List.cons_append, List.takeWhile_cons, hl a (List.mem_cons_self _ _), if_true,
      reduceIte]
    rw [ih (fun b hb => hl b (List.mem_cons_of_mem _ hb)) hx]

/-- `os.path.basename` of a join with a slash-free final segment. -/
theorem osBasename_append (a s : String) (h : ∀ c ∈ s.data, c ≠ '/') :
    osBasename (a ++ "/" ++ s) = s := by
  rw [osBasename]
  have hd : (a ++ "/" ++ s).data = a.data ++ '/' :: s.data := by simp
  rw [hd]
  have hrev : (a.data ++ '/' :: s.data).reverse = s.data.reverse ++ '/' :: a.data.reverse := by
    simp
  rw [hrev]
  rw [takeWhile_append_stop _ '/' a.data.reverse s.data.reverse
    (fun c hc => by
      simp only [decide_eq_true_eq]
      exact h c (List.mem_reverse.mp hc))
    (by decide)]
  simp

/-- The compatdata path written with its final join explicit. -/
theorem dgCompatPath_eq (gi : GameInfo) :
    dgCompatPath gi = (gi.library_path ++ "/steamapps/compatdata") ++ "/" ++ gi.appid := by
  rw [dgCompatPath]
  have hlit : ("/steamapps/compatdata" ++ "/" : String) = "/steamapps/compatdata/" := by decide
  rw [String.append_assoc gi.library_path "/steamapps/compatdata" "/", hlit]

/-- The compatdata path always ends with `compatdata/<appid>`. -/
theorem dgCompatPath_endsWith (gi : GameInfo) :
    strEndsWith (dgCompatPath gi) (pathJoin "compatdata" gi.appid) = true := by
  rw [strEndsWith, List.isSuffixOf_iff_suffix]
  refine ⟨gi.library_path.data ++ "/steamapps/".data, ?_⟩
  rw [dgCompatPath, pathJoin]
  simp [String.data_append, List.append_assoc]

/-- Erasing a name removes every entry with that name. -/
theorem FSList.findName_eraseName : ∀ (cs : FSList) (c : String),
    (cs.eraseName c).findName c = none
  | .nil, c => rfl
  | .cons n node rest, c => by
    unfold FSList.eraseName
    by_cases h : n = c
    · rw [if_pos h]
      exact FSList.findName_eraseName rest c
    · rw [if_neg h]
      unfold FSList.findName
      rw [if_neg h]
      exact FSList.findName_eraseName rest c

/-- `mapName` rewrites exactly the entry that `findName` returns. -/
theorem FSList.findName_mapName : ∀ (cs : FSList) (c : String) (f : FSNode → FSNode),
    (cs.mapName c f).findName c = (cs.findName c).map f
  | .nil, c, f => rfl
  | .cons n node rest, c, f => by
    unfold FSList.mapName
    by_cases h : n = c
    · rw [if_pos h]
      unfold FSList.findName
      rw [if_pos h, if_pos h]
      rfl
    · rw [if_neg h]
      unfold FSList.findName
      rw [if_neg h, if_neg h]
      exact FSList.findName_mapName rest c f

/-- After removing a path, looking it up gives nothing. -/
theorem FSNode.lookup_removePath_self : ∀ (comps : List String) (fs : FSNode), comps ≠ [] →
    (fs.removePath comps).lookup comps = none
  | [], _, h => absurd rfl h
  | [c], fs, _ => by
    rcases fs with ⟨s, l⟩ | cs
    · rfl
    · show (FSNode.dir (cs.eraseName c)).lookup [c] = none
      unfold FSNode.lookup
      rw [FSList.findName_eraseName]
  | c :: c' :: rest, fs, _ => by
    rcases fs with ⟨s, l⟩ | cs
    · rfl
    · show (FSNode.dir (cs.mapName c (fun child => child.removePath (c' :: rest)))).lookup
          (c :: c' :: rest) = none
      unfold FSNode.lookup
      rw [FSList.findName_mapName]
      rcases hf : cs.findName c with _ | child
      · rfl
      · simp only [Option.map_some']
        exact FSNode.lookup_removePath_self (c' :: rest) child (by simp)

/-- String-level version of the previous lemma. -/
theorem fsLookup_remove_self (fs : FSNode) (p : String)
    (h : normComps (pathSplit p) [] ≠ []) :
    fsLookup (fsRemove fs p) p = none := by
  rw [fsLookup, fsRemove]
  exact FSNode.lookup_removePath_self _ fs h

/-- An all-digits string cannot be one of the dangerous folder names. -/
theorem digits_not_dangerous (s : String) (h : strIsDigit s = true) :
    (["windows", "system32", "program files", "programdata", "root", "etc", "var"].any
      (fun d => s = d)) = false := by
  have hne : ∀ (d : String), strIsDigit d = false → s ≠ d := by
    intro d hd he
    rw [he] at h
    rw [h] at hd
    cases hd
  have h1 := hne "windows" (by decide)
  have h2 := hne "system32" (by decide)
  have h3 := hne "program files" (by decide)
  have h4 := hne "programdata" (by decide)
  have h5 := hne "root" (by decide)
  have h6 := hne "etc" (by decide)
  have h7 := hne "var" (by decide)
  simp [h1, h2, h3, h4, h5, h6, h7]

/-- Valid names contain no slash. -/
theorem validName_no_slash (n : String) (h : validName n = true) :
    ∀ c ∈ n.data, c ≠ '/' := by
  intro c hc he
  subst he
  rw [validName] at h
  simp only [Bool.and_eq_true, decide_eq_true_eq] at h
  exact absurd hc (by simpa using h.2)

/-- C8 counterexample: a compatdata directory for a digits-only app id,
present on disk but containing none of `pfx`, `version`, `config_info`;
the deletion proceeds and removes the directory with `success = true`,
yet the outcome's `errors` list is empty — it carries no warning-class
entry (the structural warning goes only to the logger; had any entry
been appended to `errors`, `delete_game` would have returned
`success = false`). -/
theorem c8_counterexample :
    strEndsWith (dgCompatPath demoGI) (pathJoin "compatdata" demoGI.appid) = true ∧
    strIsDigit demoGI.appid = true ∧
    fsIsDir demoLibFS (dgCompatPath demoGI) = true ∧
    (∀ n ∈ ["pfx", "version", "config_info"],
      fsLookup demoLibFS (pathJoin (dgCompatPath demoGI) n) = none) ∧
    (deleteGame demoLibFS demoGI true).1.success = true ∧
    fsLookup (deleteGame demoLibFS demoGI true).2 (dgCompatPath demoGI) = none ∧
    (deleteGame demoLibFS demoGI true).1.errors = [] := by decide

/-- C8 (amended): deleting a game with `delete_compatdata = true`, when
the compatdata directory exists (path necessarily ending in
`compatdata/<app_id>`), the app id is all digits, and the directory
contains none of the expected items `pfx`/`version`/`config_info`, the
deletion proceeds: the directory is removed and the call returns
`success = true` — and the returned outcome carries no warning-class
entry, its `errors` list is empty (the soft-check warning is only
logged). -/
theorem c8_compat_soft_check (fs : FSNode) (gi : GameInfo) (cs : FSList)
    (hval : validateDeletionSafety fs gi = true)
    (hacf : fsIsDir fs gi.acf_path = false)
    (hdig : strIsDigit gi.appid = true)
    (hcompat : fsLookup (dgStep2 (dgStep1 fs gi).2.2 gi).2 (dgCompatPath gi) = some (.dir cs))
    (hmiss : cs.names.all (fun n => !(["pfx", "version", "config_info"].contains n)) = true) :
    (deleteGame fs gi true).1.success = true ∧
    (deleteGame fs gi true).1.errors = [] ∧
    fsLookup (deleteGame fs gi true).2 (dgCompatPath gi) = none := by
  have hvapp : validName gi.appid = true := validName_of_digits _ hdig
  have hbase : osBasename (dgCompatPath gi) = gi.appid := by
    rw [dgCompatPath_eq]
    exact osBasename_append _ _ (validName_no_slash _ hvapp)
  have hlow : strToLower (osBasename (dgCompatPath gi)) = gi.appid := by
    rw [hbase, strToLower_of_digits _ hdig]
  have hs1 : (dgStep1 fs gi).2.1 = [] := by
    unfold dgStep1
    rcases hl : fsLookup fs gi.acf_path with _ | node
    · simp [hl]
    · rcases node with ⟨s, l⟩ | cs'
      · simp [hl]
      · simp [fsIsDir, hl] at hacf
  have hcv : validateCompatdataDeletionSafety
      (dgStep2 (dgStep1 fs gi).2.2 gi).2 (dgCompatPath gi) gi.appid = true := by
    simp [validateCompatdataDeletionSafety, dgCompatPath_endsWith, hcompat, hlow,
      digits_not_dangerous gi.appid hdig, hdig]
  have hex : fsExists (dgStep2 (dgStep1 fs gi).2.2 gi).2 (dgCompatPath gi) = true := by
    simp [fsExists, hcompat]
  have hisd : fsIsDir (dgStep2 (dgStep1 fs gi).2.2 gi).2 (dgCompatPath gi) = true := by
    simp [fsIsDir, hcompat]
  have hstep3 : dgStep3 (dgStep2 (dgStep1 fs gi).2.2 gi).2 gi true
      = (["Compatdata folder: " ++ dgCompatPath gi], [],
         fsRemove (dgStep2 (dgStep1 fs gi).2.2 gi).2 (dgCompatPath gi)) := by
    rw [dgStep3]
    simp [hex, hisd, hcv]
  have hcomps : normComps (pathSplit (dgCompatPath gi)) [] ≠ [] := by
    have hsplit : pathSplit (dgCompatPath gi)
        = pathSplit (gi.library_path ++ "/steamapps/compatdata") ++ [gi.appid] := by
      rw [dgCompatPath_eq]
      exact pathSplit_join _ _ hvapp
    rw [hsplit, normComps_append_valid _ _ _ (validName_ne_dots _ hvapp).1
      (validName_ne_dots _ hvapp).2]
    simp
  unfold deleteGame
  simp only [hval, Bool.not_true, Bool.false_eq_true, if_false, hstep3, hs1,
    List.nil_append, List.append_nil]
  refine ⟨by simp, by simp, ?_⟩
  simp only [ne_eq, not_true_eq_false, if_false]
  exact fsLookup_remove_self _ _ hcomps

/-- Witness for C8 (amended) at the concrete record: compatdata for app
789 contains only `save.dat`, yet deletion proceeds with empty errors. -/
theorem c8_compat_soft_check_witness :
    validateDeletionSafety demoLibFS demoGI = true ∧
    fsIsDir demoLibFS demoGI.acf_path = false ∧
    strIsDigit demoGI.appid = true ∧
    fsLookup (dgStep2 (dgStep1 demoLibFS demoGI).2.2 demoGI).2 (dgCompatPath demoGI)
      = some (.dir (FSList.cons "save.dat" (fsFile 3) FSList.nil)) ∧
    ((deleteGame demoLibFS demoGI true).1.success = true ∧
     (deleteGame demoLibFS demoGI true).1.errors = [] ∧
     fsLookup (deleteGame demoLibFS demoGI true).2 (dgCompatPath demoGI) = none) :=
  ⟨by decide, by decide, by decide, by decide,
   c8_compat_soft_check demoLibFS demoGI (FSList.cons "save.dat" (fsFile 3) FSList.nil)
     (by decide) (by decide) (by decide) (by decide) (by decide)⟩
